import Mathlib

/-!
Verification of the PropertiFinder listing component.

The component under study is a single React component that owns the
listing state: a property collection, a filter state, a selection set,
view-mode handling, a floating detail card with clamped placement, and an
add-property workflow.  All of its logic is pure state transformation, so
we embed it shallowly: every handler becomes a Lean function on an explicit
state record, and JavaScript numbers are modelled exactly where their
special values matter (`parseInt`/`Number` can produce `NaN` or `Infinity`,
so parsed range bounds live in a dedicated type `JsNum`; ordinary data
fields such as prices and areas are finite numbers, modelled as `ℚ`).
-/

namespace PropertiFinder

/-- Result of a JavaScript numeric parse: either a finite number, one of the
two infinities, or `NaN`.  (We only need this type for values coming out of
`parseInt`/`Number`; property data fields are plain finite numbers.) -/
inductive JsNum where
  | nan : JsNum
  | finite : ℚ → JsNum
  | posInf : JsNum
  | negInf : JsNum
deriving DecidableEq

/-- JavaScript `a <= b` on parsed numbers: any comparison involving `NaN`
is false; the infinities compare as expected. -/
def jsLe : JsNum → JsNum → Bool
  | JsNum.nan, _ => false
  | _, JsNum.nan => false
  | JsNum.negInf, _ => true
  | _, JsNum.negInf => false
  | _, JsNum.posInf => true
  | JsNum.posInf, _ => false
  | JsNum.finite a, JsNum.finite b => decide (a ≤ b)

/-- JavaScript `a >= bound` where `a` is a plain (finite) number and `bound`
came out of a parse. -/
def jsGeNum (a : ℚ) (bound : JsNum) : Bool := jsLe bound (JsNum.finite a)

/-- JavaScript `a <= bound` where `a` is a plain (finite) number and `bound`
came out of a parse. -/
def jsLeNum (a : ℚ) (bound : JsNum) : Bool := jsLe (JsNum.finite a) bound

/-- Decimal digit test, `'0' ≤ c ≤ '9'`. -/
def isDigitChar (c : Char) : Bool := decide (48 ≤ c.toNat) && decide (c.toNat ≤ 57)

/-- JavaScript whitespace (the code points relevant to ASCII input). -/
def isJsWS (c : Char) : Bool :=
  decide (c = ' ') || decide (c = '\t') || decide (c = '\n') || decide (c = '\r') ||
    decide (c = '\x0b') || decide (c = '\x0c')

/-- Value of a decimal digit string, most significant digit first. -/
def digitsToNat (l : List Char) : ℕ := l.foldl (fun acc c => acc * 10 + (c.toNat - 48)) 0

/-- Hexadecimal digit value, if any. -/
def hexDigitVal (c : Char) : Option ℕ :=
  if 48 ≤ c.toNat ∧ c.toNat ≤ 57 then some (c.toNat - 48)
  else if 97 ≤ c.toNat ∧ c.toNat ≤ 102 then some (c.toNat - 87)
  else if 65 ≤ c.toNat ∧ c.toNat ≤ 70 then some (c.toNat - 55)
  else none

/-- Octal digit value, if any. -/
def octDigitVal (c : Char) : Option ℕ :=
  if 48 ≤ c.toNat ∧ c.toNat ≤ 55 then some (c.toNat - 48) else none

/-- Binary digit value, if any. -/
def binDigitVal (c : Char) : Option ℕ :=
  if 48 ≤ c.toNat ∧ c.toNat ≤ 49 then some (c.toNat - 48) else none

/-- Does the list start with `0x` / `0o` / `0b` (given the two marker
letters)?  Used for the radix forms accepted by `parseInt` and `Number`. -/
def hasRadixMark (l : List Char) (lo hi : Char) : Bool :=
  decide (l.head? = some '0') && (decide (l.getD 1 ' ' = lo) || decide (l.getD 1 ' ' = hi))

/-- Value of a digit string in a given base, digits validated by `dv`. -/
def radixDigitsVal (base : ℕ) (dv : Char → Option ℕ) (l : List Char) : ℕ :=
  l.foldl (fun acc c => acc * base + ((dv c).getD 0)) 0

/-- Tail of JavaScript `parseInt` after whitespace and sign have been
consumed: an optional `0x`/`0X` prefixed hexadecimal read, otherwise a
greedy decimal-digit read; `NaN` when no digit is found. -/
def parseIntTail (sign : ℚ) (l : List Char) : JsNum :=
  if hasRadixMark l 'x' 'X' then
    let ds := (l.drop 2).takeWhile (fun c => (hexDigitVal c).isSome)
    if ds.isEmpty then JsNum.nan
    else JsNum.finite (sign * (radixDigitsVal 16 hexDigitVal ds : ℚ))
  else
    let ds := l.takeWhile isDigitChar
    if ds.isEmpty then JsNum.nan
    else JsNum.finite (sign * (digitsToNat ds : ℚ))

/-- JavaScript `parseInt(str)` (radix 10 unless a `0x` prefix selects 16):
skip leading whitespace, read an optional sign, then read leading digits,
ignoring everything after the first non-digit; `NaN` if no digit was read. -/
def parseIntJS (str : String) : JsNum :=
  let l := str.toList.dropWhile isJsWS
  if l.head? = some '-' then parseIntTail (-1) l.tail
  else if l.head? = some '+' then parseIntTail 1 l.tail
  else parseIntTail 1 l

/-- Trim JavaScript whitespace from both ends. -/
def trimWS (l : List Char) : List Char :=
  ((l.dropWhile isJsWS).reverse.dropWhile isJsWS).reverse

/-- Unsigned decimal literal as accepted by JavaScript `Number`:
`digits [. digits] [e|E [sign] digits]`, where at least one digit must be
present in the integer or fraction part and the whole input must be
consumed.  Returns the exact rational value. -/
def parseDecimalAll (l : List Char) : Option ℚ :=
  let intds := l.takeWhile isDigitChar
  let rest1 := l.dropWhile isDigitChar
  let hasDot := rest1.head? = some '.'
  let afterDot := if hasDot then rest1.tail else rest1
  let fracds := if hasDot then afterDot.takeWhile isDigitChar else []
  let rest2 := if hasDot then afterDot.dropWhile isDigitChar else rest1
  if intds.isEmpty && fracds.isEmpty then none
  else
    let mant : ℚ := (digitsToNat intds : ℚ) + (digitsToNat fracds : ℚ) / ((10 : ℚ) ^ fracds.length)
    if rest2.isEmpty then some mant
    else if rest2.head? = some 'e' ∨ rest2.head? = some 'E' then
      let t := rest2.tail
      let negExp := t.head? = some '-'
      let t2 := if t.head? = some '-' ∨ t.head? = some '+' then t.tail else t
      let eds := t2.takeWhile isDigitChar
      if eds.isEmpty ∨ ¬ (t2.dropWhile isDigitChar).isEmpty then none
      else some (if negExp then mant / ((10 : ℚ) ^ digitsToNat eds)
                 else mant * ((10 : ℚ) ^ digitsToNat eds))
    else none

/-- Radix literal (`0x…`, `0o…`, `0b…`) as accepted by `Number`: the whole
remainder must consist of at least one digit of the base. -/
def parseRadixAll (base : ℕ) (dv : Char → Option ℕ) (l : List Char) : Option ℚ :=
  let ds := l.takeWhile (fun c => (dv c).isSome)
  if ds.isEmpty ∨ ¬ (l.dropWhile (fun c => (dv c).isSome)).isEmpty then none
  else some ((radixDigitsVal base dv ds : ℕ) : ℚ)

/-- Numeric-literal body of JavaScript `Number` (whitespace already
trimmed, input nonempty): optional sign followed by a decimal literal, or
an unsigned radix literal. -/
def numericLiteral (l : List Char) : Option ℚ :=
  if l.head? = some '+' then parseDecimalAll l.tail
  else if l.head? = some '-' then (parseDecimalAll l.tail).map (fun q => -q)
  else if hasRadixMark l 'x' 'X' then parseRadixAll 16 hexDigitVal (l.drop 2)
  else if hasRadixMark l 'o' 'O' then parseRadixAll 8 octDigitVal (l.drop 2)
  else if hasRadixMark l 'b' 'B' then parseRadixAll 2 binDigitVal (l.drop 2)
  else parseDecimalAll l

/-- JavaScript `Number(str)`: trim whitespace; empty means `0`; otherwise
the whole string must be a numeric literal or a signed `Infinity`, and
anything else is `NaN`. -/
def numberJS (str : String) : JsNum :=
  let l := trimWS str.toList
  if l.isEmpty then JsNum.finite 0
  else
    match numericLiteral l with
    | some q => JsNum.finite q
    | none =>
      if l = "Infinity".toList ∨ l = "+Infinity".toList then JsNum.posInf
      else if l = "-Infinity".toList then JsNum.negInf
      else JsNum.nan

/-- JavaScript `str.split(sep)` for a one-character separator, on the
character list: splits at every occurrence, keeping empty pieces, and never
returns an empty list of pieces. -/
def splitOnChar (l : List Char) (sep : Char) : List (List Char) :=
  match l with
  | [] => [[]]
  | c :: t =>
    if c = sep then [] :: splitOnChar t sep
    else
      let r := splitOnChar t sep
      (c :: r.headD []) :: r.tail

/-- Source `parseAreaRange` (part_000, lines 21–26).  `'Semua'` and the
empty string give `[0, Infinity]`; a string containing `'+'` gives
`[parseInt(range), Infinity]`; otherwise the string is split on `'-'` and
the first two pieces are read with `Number`.  A one-piece split leaves the
JavaScript `max` bound `undefined`; every numeric comparison against
`undefined` is false, exactly as for `NaN`, so that bound is modelled as
`NaN`. -/
def parseAreaRange (range : String) : JsNum × JsNum :=
  if range = "Semua" ∨ range = "" then (JsNum.finite 0, JsNum.posInf)
  else if range.toList.contains '+' then (parseIntJS range, JsNum.posInf)
  else
    let parts := (splitOnChar range.toList '-').map (fun p => numberJS (String.mk p))
    (parts.headD JsNum.nan, parts.getD 1 JsNum.nan)

/-- Geographic coordinates as consumed by the map collaborator. -/
structure Coords where
  lat : ℚ
  lng : ℚ
deriving DecidableEq

/-- A listed property (the `Property` type from `@/lib/data`): the fields the
component reads, with JavaScript `number` fields modelled as `ℚ`. -/
structure Property where
  id : String
  title : String
  description : String
  location : String
  price : ℚ
  type : String
  buildingArea : ℚ
  landArea : ℚ
  coordinates : Coords
deriving DecidableEq

/-- The `FilterState` record: search term, property type, price sort order,
and the two textual area-range descriptors. -/
structure FilterState where
  searchTerm : String
  propertyType : String
  priceSort : String
  buildingArea : String
  landArea : String
deriving DecidableEq

/-- JavaScript `hay.includes(needle)` on character lists: `startsWithChars`
checks a needle at the front. -/
def startsWithChars : List Char → List Char → Bool
  | _, [] => true
  | [], _ :: _ => false
  | a :: s, b :: t => decide (a = b) && startsWithChars s t

/-- JavaScript `hay.includes(needle)` on character lists: true when the
needle occurs at some position. -/
def hasSubstring (needle : List Char) : List Char → Bool
  | [] => needle.isEmpty
  | c :: t => startsWithChars (c :: t) needle || hasSubstring needle t

/-- JavaScript `hay.includes(needle)` on strings. -/
def jsIncludes (hay needle : String) : Bool := hasSubstring needle.toList hay.toList

/-- The filter predicate applied to each property (the callback of
`sortedProperties.filter` in `filteredProperties`, part_000 lines 104–116):
the conjunction of the search-term match, the type match and the two area
range checks.  (`String.toLower` models `toLowerCase`; the inputs here are
ASCII.) -/
def propertyMatches (filters : FilterState) (property : Property) : Bool :=
  let searchTermMatch :=
    decide (filters.searchTerm = "") ||
      jsIncludes property.title.toLower filters.searchTerm.toLower ||
      jsIncludes property.description.toLower filters.searchTerm.toLower ||
      jsIncludes property.location.toLower filters.searchTerm.toLower
  let propertyTypeMatch :=
    decide (filters.propertyType = "Semua") || decide (property.type = filters.propertyType)
  let bRange := parseAreaRange filters.buildingArea
  let lRange := parseAreaRange filters.landArea
  let buildingAreaMatch :=
    jsGeNum property.buildingArea bRange.1 && jsLeNum property.buildingArea bRange.2
  let landAreaMatch :=
    jsGeNum property.landArea lRange.1 && jsLeNum property.landArea lRange.2
  searchTermMatch && propertyTypeMatch && buildingAreaMatch && landAreaMatch

/-- Ascending price comparison (`(a, b) => a.price - b.price` comparator). -/
def priceAsc : Property → Property → Prop := fun a b => a.price ≤ b.price

/-- Descending price comparison (`(a, b) => b.price - a.price` comparator). -/
def priceDesc : Property → Property → Prop := fun a b => b.price ≤ a.price

instance : DecidableRel priceAsc := fun a b => inferInstanceAs (Decidable (a.price ≤ b.price))

instance : DecidableRel priceDesc := fun a b => inferInstanceAs (Decidable (b.price ≤ a.price))

instance : IsTotal Property priceAsc := ⟨fun a b => le_total a.price b.price⟩

instance : IsTrans Property priceAsc := ⟨fun _ _ _ h1 h2 => le_trans h1 h2⟩

instance : IsTotal Property priceDesc := ⟨fun a b => le_total b.price a.price⟩

instance : IsTrans Property priceDesc := ⟨fun _ _ _ h1 h2 => le_trans h2 h1⟩

/-- Sorting step of `filteredProperties` (part_000 lines 93–99).
`Array.prototype.sort` is stable (ECMAScript 2019) and, for a consistent
comparator such as `(a, b) => a.price - b.price`, a stable sort by a total
preorder has a unique result, so it is embedded as Mathlib's stable
`List.insertionSort`.  With any other `priceSort` value the copied array is
left in its original order. -/
def sortedByPrice (properties : List Property) (filters : FilterState) : List Property :=
  if filters.priceSort = "Harga Terendah" then properties.insertionSort priceAsc
  else if filters.priceSort = "Harga Tertinggi" then properties.insertionSort priceDesc
  else properties

/-- The memoized visible set `filteredProperties` (part_000 lines 92–117):
sort a copy of the collection by price when a price sort is selected, then
keep the properties passing all four predicates. -/
def filteredProperties (properties : List Property) (filters : FilterState) : List Property :=
  (sortedByPrice properties filters).filter (propertyMatches filters)

/-- Source `togglePropertySelection` (part_000 lines 84–90): remove every
occurrence of the id if present, append it otherwise. -/
def togglePropertySelection (prev : List String) (propertyId : String) : List String :=
  if prev.contains propertyId then prev.filter (fun id => id != propertyId)
  else prev ++ [propertyId]

/-- The two view modes (`view=list|map` query parameter, default `map`). -/
inductive ViewMode where
  | list : ViewMode
  | map : ViewMode
deriving DecidableEq

/-- The state cells owned by `PropertyListingsComponent`. -/
structure ListingsState where
  properties : List Property
  hoveredPropertyId : Option String
  selectedPropertyIds : List String
  viewMode : ViewMode
  isAddDrawerOpen : Bool
  selectedPropertyForCard : Option Property
  newPropertyCoords : Option Coords
  cardPosition : Option (ℚ × ℚ)
  filters : FilterState
deriving DecidableEq

/-- The effect with dependency `[viewMode]` (part_000 lines 74–77): clear the
selection set and the floating card. -/
def viewModeEffect (s : ListingsState) : ListingsState :=
  { s with selectedPropertyIds := [], selectedPropertyForCard := none }

/-- The header's `onViewModeChange` callback (part_000 lines 208–211)
composed with React's effect semantics: the handler updates the view-mode
query parameter and clears the floating card, and the `[viewMode]` effect
re-runs exactly when the mode actually changed. -/
def onViewModeChange (s : ListingsState) (mode : ViewMode) : ListingsState :=
  let s1 := { s with viewMode := mode, selectedPropertyForCard := none }
  if mode = s.viewMode then s1 else viewModeEffect s1

/-- A `Partial<FilterState>` update: each field optionally replaced. -/
structure FilterUpdate where
  searchTerm : Option String
  propertyType : Option String
  priceSort : Option String
  buildingArea : Option String
  landArea : Option String
deriving DecidableEq

/-- The spread `{ ...prev, ...newFilters }`. -/
def applyFilterUpdate (prev : FilterState) (u : FilterUpdate) : FilterState :=
  { searchTerm := u.searchTerm.getD prev.searchTerm
    propertyType := u.propertyType.getD prev.propertyType
    priceSort := u.priceSort.getD prev.priceSort
    buildingArea := u.buildingArea.getD prev.buildingArea
    landArea := u.landArea.getD prev.landArea }

/-- Source `handleFilterChange` (part_000 lines 79–82): merge the partial
update into the filters and drop the floating card. -/
def handleFilterChange (s : ListingsState) (u : FilterUpdate) : ListingsState :=
  { s with filters := applyFilterUpdate s.filters u, selectedPropertyForCard := none }

/-- Fixed card width used by `handleMarkerClick`. -/
def CARD_WIDTH : ℚ := 384

/-- Fixed card height used by `handleMarkerClick`. -/
def CARD_HEIGHT : ℚ := 300

/-- Padding used by `handleMarkerClick`. -/
def PADDING : ℚ := 16

/-- The clamping arithmetic of `handleMarkerClick` (part_000 lines 131–161):
offset the raw click point by the padding, clamp the left edge, then the
right edge, then the bottom edge, then the header band, in that order. -/
def computeCardPosition (clickX clickY windowWidth windowHeight headerHeight : ℚ) : ℚ × ℚ :=
  let x := clickX + PADDING
  let y := clickY + PADDING
  let x := if x < PADDING then PADDING else x
  let x := if x + CARD_WIDTH > windowWidth - PADDING then windowWidth - CARD_WIDTH - PADDING else x
  let y := if y + CARD_HEIGHT > windowHeight - PADDING then windowHeight - CARD_HEIGHT - PADDING else y
  let y := if y < headerHeight + PADDING then headerHeight + PADDING else y
  (x, y)

/-- The DOM event carried by a marker click: either a mouse event with
client coordinates, or some other event kind (`event.domEvent instanceof
MouseEvent` fails). -/
inductive DomEvent where
  | mouse : ℚ → ℚ → DomEvent
  | nonMouse : DomEvent
deriving DecidableEq

/-- Browser metrics read by `handleMarkerClick`: `window.innerWidth`,
`window.innerHeight`, and `headerRef.current?.offsetHeight || 0`. -/
structure Viewport where
  innerWidth : ℚ
  innerHeight : ℚ
  headerHeight : ℚ
deriving DecidableEq

/-- Source `handleMarkerClick` (part_000 lines 127–165): show the card for
the clicked property; with a mouse event store the clamped position,
otherwise store no position. -/
def handleMarkerClick (s : ListingsState) (property : Property) (ev : DomEvent)
    (vp : Viewport) : ListingsState :=
  match ev with
  | DomEvent.mouse clickX clickY =>
    { s with selectedPropertyForCard := some property,
             cardPosition :=
               some (computeCardPosition clickX clickY vp.innerWidth vp.innerHeight
                 vp.headerHeight) }
  | DomEvent.nonMouse =>
    { s with selectedPropertyForCard := some property, cardPosition := none }

/-- Where the floating card is rendered (the `style` ternary on part_000
line 260): a computed `top`/`left` pair when a position was stored, else the
fixed `bottom: 1rem; left: 1rem` anchor. -/
inductive CardPlacement where
  | computed : (top : ℚ) → (left : ℚ) → CardPlacement
  | anchoredBottomLeft : CardPlacement
deriving DecidableEq

/-- The card placement derived from the stored `cardPosition`. -/
def floatingCardPlacement (cardPosition : Option (ℚ × ℚ)) : CardPlacement :=
  match cardPosition with
  | some p => CardPlacement.computed p.2 p.1
  | none => CardPlacement.anchoredBottomLeft

/-- Source `handleMapClick` (part_000 lines 168–175): a map background click
closes any floating card and, when the event carries coordinates, captures
them and opens the add drawer. -/
def handleMapClick (s : ListingsState) (latLng : Option Coords) : ListingsState :=
  let s1 := { s with selectedPropertyForCard := none }
  match latLng with
  | some coords => { s1 with newPropertyCoords := some coords, isAddDrawerOpen := true }
  | none => s1

/-- Source `handleAddDrawerOpen` (part_000 lines 177–182): set the drawer
flag and discard the captured coordinates on close. -/
def handleAddDrawerOpen (s : ListingsState) (isOpen : Bool) : ListingsState :=
  let s1 := { s with isAddDrawerOpen := isOpen }
  if isOpen then s1 else { s1 with newPropertyCoords := none }

/-- The submitted form payload, `Omit<Property, 'id'>`. -/
structure NewPropertyData where
  title : String
  description : String
  location : String
  price : ℚ
  type : String
  buildingArea : ℚ
  landArea : ℚ
  coordinates : Coords
deriving DecidableEq

/-- The property constructed by `handleAddProperty`: the synthesized id
`(properties.length + 100).toString()` spread with the form payload. -/
def mkNewProperty (s : ListingsState) (d : NewPropertyData) : Property :=
  { id := toString (s.properties.length + 100)
    title := d.title
    description := d.description
    location := d.location
    price := d.price
    type := d.type
    buildingArea := d.buildingArea
    landArea := d.landArea
    coordinates := d.coordinates }

/-- Source `handleAddProperty` (part_000 lines 190–198): append the new
property, close the drawer and discard the captured coordinates. -/
def handleAddProperty (s : ListingsState) (d : NewPropertyData) : ListingsState :=
  { s with properties := s.properties ++ [mkNewProperty s d],
           isAddDrawerOpen := false,
           newPropertyCoords := none }

/-! ## Concrete fixtures used by counterexamples and witnesses -/

/-- The component's initial filter state: every field at its sentinel. -/
def sentinelFilters : FilterState :=
  { searchTerm := ""
    propertyType := "Semua"
    priceSort := "Default"
    buildingArea := "Semua"
    landArea := "Semua" }

/-- Sample coordinates. -/
def sampleCoords : Coords := { lat := 1, lng := 2 }

/-- An ordinary property with non-negative areas. -/
def sampleProperty : Property :=
  { id := "1"
    title := "Rumah A"
    description := "desc"
    location := "Jakarta"
    price := 500
    type := "Rumah"
    buildingArea := 120
    landArea := 200
    coordinates := sampleCoords }

/-- A component state with a nonempty selection and a floating card shown. -/
def sampleState : ListingsState :=
  { properties := [sampleProperty]
    hoveredPropertyId := none
    selectedPropertyIds := ["1"]
    viewMode := ViewMode.map
    isAddDrawerOpen := false
    selectedPropertyForCard := some sampleProperty
    newPropertyCoords := none
    cardPosition := some (5, 5)
    filters := sentinelFilters }

/-- A property with a negative building area; the sentinel range `[0, ∞)`
excludes it. -/
def negAreaProperty : Property := { sampleProperty with id := "neg", buildingArea := -1 }

/-- Filters whose building-area descriptor has a non-numeric bound. -/
def badAreaFilters : FilterState := { sentinelFilters with buildingArea := "abc+" }

/-- A property whose server-assigned id happens to equal the id the add
workflow synthesizes for a one-element collection. -/
def collidingProperty : Property := { sampleProperty with id := "101" }

/-- A state holding only `collidingProperty`. -/
def collidingState : ListingsState := { sampleState with properties := [collidingProperty] }

/-- A sample submitted form payload. -/
def sampleFormData : NewPropertyData :=
  { title := "X"
    description := "d"
    location := "Somewhere"
    price := 300
    type := "Rumah"
    buildingArea := 80
    landArea := 90
    coordinates := sampleCoords }

/-- A property priced at 100 (first element of the 3-property scenario). -/
def pricedProperty : Property := { sampleProperty with id := "p100", price := 100 }

/-- A property priced at 50. -/
def cheapProperty : Property := { sampleProperty with id := "p50", price := 50 }

/-- A property priced at 75. -/
def midProperty : Property := { sampleProperty with id := "p75", price := 75 }

/-- The 3-property scenario collection with prices `[100, 50, 75]`. -/
def props3 : List Property := [pricedProperty, cheapProperty, midProperty]

/-- Sentinel filters with ascending price sort. -/
def ascFilters : FilterState := { sentinelFilters with priceSort := "Harga Terendah" }

/-- Sentinel filters with descending price sort. -/
def descFilters : FilterState := { sentinelFilters with priceSort := "Harga Tertinggi" }

/-- Sentinel filters with building-area descriptor `"100+"`. -/
def area100Filters : FilterState := { sentinelFilters with buildingArea := "100+" }

/-- A property with building area exactly 100. -/
def area100Property : Property := { sampleProperty with id := "b100", buildingArea := 100 }

/-- A property with building area 99. -/
def area99Property : Property := { sampleProperty with id := "b99", buildingArea := 99 }

/-! ## C5, C6, C8: view switching, filter frame, fallback placement -/

/-- C5: for every prior state, switching the view mode (to a mode different
from the current one) leaves the selection set empty and no floating detail
card shown. -/
theorem C5_view_mode_switch_clears (s : ListingsState) (mode : ViewMode)
    (h : mode ≠ s.viewMode) :
    (onViewModeChange s mode).selectedPropertyIds = [] ∧
    (onViewModeChange s mode).selectedPropertyForCard = none := by
  unfold onViewModeChange viewModeEffect
  rw [if_neg h]
  exact ⟨rfl, rfl⟩

/-- Witness for C5 at a concrete state with a nonempty selection and a
floating card. -/
theorem C5_view_mode_switch_clears_witness :
    ViewMode.list ≠ sampleState.viewMode ∧
    ((onViewModeChange sampleState ViewMode.list).selectedPropertyIds = [] ∧
      (onViewModeChange sampleState ViewMode.list).selectedPropertyForCard = none) :=
  ⟨by decide, C5_view_mode_switch_clears sampleState ViewMode.list (by decide)⟩

/-- C6: applying any filter-field update leaves the selection set (and the
collection) exactly unchanged; filtering never prunes the selection. -/
theorem C6_filter_change_preserves_selection (s : ListingsState) (u : FilterUpdate) :
    (handleFilterChange s u).selectedPropertyIds = s.selectedPropertyIds ∧
    (handleFilterChange s u).properties = s.properties :=
  ⟨rfl, rfl⟩

/-- C8: a marker interaction whose DOM event is not a mouse event stores no
computed position, and the floating card is rendered at the fixed
bottom-left anchor. -/
theorem C8_non_mouse_event_fallback (s : ListingsState) (property : Property)
    (vp : Viewport) :
    (handleMarkerClick s property DomEvent.nonMouse vp).cardPosition = none ∧
    floatingCardPlacement
        (handleMarkerClick s property DomEvent.nonMouse vp).cardPosition
      = CardPlacement.anchoredBottomLeft ∧
    (handleMarkerClick s property DomEvent.nonMouse vp).selectedPropertyForCard
      = some property :=
  ⟨rfl, rfl, rfl⟩

/-! ## C3: double toggle -/

/-- Toggling an absent id appends it. -/
theorem toggle_of_not_mem (prev : List String) (propertyId : String)
    (h : propertyId ∉ prev) :
    togglePropertySelection prev propertyId = prev ++ [propertyId] := by
  unfold togglePropertySelection
  simp [h]

/-- Toggling a present id filters out all of its occurrences. -/
theorem toggle_of_mem (prev : List String) (propertyId : String)
    (h : propertyId ∈ prev) :
    togglePropertySelection prev propertyId
      = prev.filter (fun id => id != propertyId) := by
  unfold togglePropertySelection
  simp [h]

/-- Filtering out an id that does not occur is the identity. -/
theorem filter_ne_of_not_mem (prev : List String) (propertyId : String)
    (h : propertyId ∉ prev) :
    prev.filter (fun id => id != propertyId) = prev := by
  apply List.filter_eq_self.mpr
  intro a ha
  simp only [bne_iff_ne, ne_eq]
  exact fun e => h (e ▸ ha)

/-- The filtered list no longer contains the id. -/
theorem not_mem_filter_ne (prev : List String) (propertyId : String) :
    propertyId ∉ prev.filter (fun id => id != propertyId) := by
  intro h
  simpa using (List.mem_filter.mp h).2

/-- C3 (counterexample): toggling `"a"` twice on `["a", "b"]` yields
`["b", "a"]`, not the original list — contents agree but order does not,
because removal filters and re-adding appends at the end. -/
theorem C3_counterexample :
    ¬ (togglePropertySelection (togglePropertySelection ["a", "b"] "a") "a"
        = ["a", "b"]) := by
  decide

/-- C3 (amended): toggling twice restores the selection exactly when the id
was absent; when the id was present the result is the original with the
id's occurrences removed and the id appended, which equals the original
exactly in the case that the id's only occurrence was the final element. -/
theorem C3_double_toggle (prev : List String) (propertyId : String) :
    (propertyId ∉ prev →
      togglePropertySelection (togglePropertySelection prev propertyId) propertyId
        = prev) ∧
    (propertyId ∈ prev →
      togglePropertySelection (togglePropertySelection prev propertyId) propertyId
        = prev.filter (fun id => id != propertyId) ++ [propertyId]) ∧
    (propertyId ∉ prev →
      togglePropertySelection
          (togglePropertySelection (prev ++ [propertyId]) propertyId) propertyId
        = prev ++ [propertyId]) := by
  refine ⟨?_, ?_, ?_⟩
  · intro h
    rw [toggle_of_not_mem prev propertyId h,
      toggle_of_mem _ _ (List.mem_append_right prev (List.mem_singleton_self _)),
      List.filter_append, filter_ne_of_not_mem prev propertyId h]
    simp
  · intro h
    rw [toggle_of_mem prev propertyId h,
      toggle_of_not_mem _ _ (not_mem_filter_ne prev propertyId)]
  · intro h
    rw [toggle_of_mem _ _ (List.mem_append_right prev (List.mem_singleton_self _)),
      List.filter_append, filter_ne_of_not_mem prev propertyId h]
    have hfil : List.filter (fun id => id != propertyId) [propertyId] = [] := by simp
    rw [hfil, List.append_nil, toggle_of_not_mem prev propertyId h]

/-- Witness for C3 at concrete selections. -/
theorem C3_double_toggle_witness :
    ("c" ∉ (["a", "b"] : List String) ∧
      togglePropertySelection (togglePropertySelection ["a", "b"] "c") "c"
        = ["a", "b"]) ∧
    ("a" ∈ (["a", "b"] : List String) ∧
      togglePropertySelection (togglePropertySelection ["a", "b"] "a") "a"
        = (["a", "b"] : List String).filter (fun id => id != "a") ++ ["a"]) :=
  ⟨⟨by decide, (C3_double_toggle ["a", "b"] "c").1 (by decide)⟩,
    ⟨by decide, (C3_double_toggle ["a", "b"] "a").2.1 (by decide)⟩⟩

/-! ## C1: sentinel filters -/

/-- C1 (counterexample): with every filter at its sentinel, a property with
a negative building area is excluded from the visible set, because the
sentinel descriptor parses to `[0, Infinity]` and the lower-bound check
`buildingArea >= 0` fails. -/
theorem C1_counterexample :
    filteredProperties [negAreaProperty] sentinelFilters ≠ [negAreaProperty] := by
  decide

/-- C1 (amended): with every filter at its sentinel value, the visible set
equals the full collection in its original order, provided every property's
building and land areas are non-negative. -/
theorem C1_sentinel_filters (properties : List Property) (filters : FilterState)
    (hsearch : filters.searchTerm = "") (htype : filters.propertyType = "Semua")
    (hsort : filters.priceSort = "Default") (hb : filters.buildingArea = "Semua")
    (hl : filters.landArea = "Semua")
    (hareas : ∀ p ∈ properties, 0 ≤ p.buildingArea ∧ 0 ≤ p.landArea) :
    filteredProperties properties filters = properties := by
  have hfs : sortedByPrice properties filters = properties := by
    unfold sortedByPrice
    rw [hsort]
    simp
  unfold filteredProperties
  rw [hfs]
  apply List.filter_eq_self.mpr
  intro p hp
  simp only [propertyMatches, hsearch, htype, hb, hl]
  simp [parseAreaRange, jsGeNum, jsLeNum, jsLe]
  exact ⟨(hareas p hp).1, (hareas p hp).2⟩

/-- Witness for C1 at a concrete one-property collection. -/
theorem C1_sentinel_filters_witness :
    sentinelFilters.searchTerm = "" ∧
    (∀ p ∈ [sampleProperty], 0 ≤ p.buildingArea ∧ 0 ≤ p.landArea) ∧
    filteredProperties [sampleProperty] sentinelFilters = [sampleProperty] :=
  ⟨rfl, by decide,
    C1_sentinel_filters [sampleProperty] sentinelFilters rfl rfl rfl rfl rfl (by decide)⟩

/-! ## C10: unparseable bounds empty the visible set -/

/-- C10: whenever either bound of either area descriptor parses to `NaN`
(a non-numeric `'+'` descriptor, or a non-numeric side of an `'A-B'`
descriptor), the visible set is empty: every comparison against `NaN` is
false, so every property fails its range check. -/
theorem C10_nan_bound_empties (properties : List Property) (filters : FilterState)
    (h : (parseAreaRange filters.buildingArea).1 = JsNum.nan ∨
         (parseAreaRange filters.buildingArea).2 = JsNum.nan ∨
         (parseAreaRange filters.landArea).1 = JsNum.nan ∨
         (parseAreaRange filters.landArea).2 = JsNum.nan) :
    filteredProperties properties filters = [] := by
  unfold filteredProperties
  apply List.filter_eq_nil_iff.mpr
  intro p hp
  simp only [propertyMatches]
  rcases h with h | h | h | h <;> rw [h] <;> simp [jsGeNum, jsLeNum, jsLe]

/-- Witness for C10: the descriptor `"abc+"` parses to a `NaN` lower bound
and empties the visible set. -/
theorem C10_nan_bound_empties_witness :
    (parseAreaRange badAreaFilters.buildingArea).1 = JsNum.nan ∧
    filteredProperties [sampleProperty] badAreaFilters = [] :=
  ⟨by decide, C10_nan_bound_empties [sampleProperty] badAreaFilters (Or.inl (by decide))⟩

/-! ## C7: popup clamping -/

/-- C7 (counterexample): on a viewport too short for the header band plus
the card (height 100, header 200), the position computed for a click at the
origin has the card overflowing the bottom edge: the header-band clamp runs
last and pushes the card back down past the bottom limit. -/
theorem C7_counterexample :
    ¬ ((computeCardPosition 0 0 1000 100 200).2 + CARD_HEIGHT ≤ 100 - PADDING) := by
  norm_num [computeCardPosition, CARD_WIDTH, CARD_HEIGHT, PADDING]

/-- C7 (amended): whenever the viewport is tall enough to fit the card below
the reserved header band (`headerHeight + CARD_HEIGHT + 2·PADDING ≤
windowHeight`), the computed position keeps the card inside the right and
bottom edges and below the header band. -/
theorem C7_clamped_position (clickX clickY windowWidth windowHeight headerHeight : ℚ)
    (h : headerHeight + CARD_HEIGHT + 2 * PADDING ≤ windowHeight) :
    (computeCardPosition clickX clickY windowWidth windowHeight headerHeight).1
        + CARD_WIDTH ≤ windowWidth - PADDING ∧
    (computeCardPosition clickX clickY windowWidth windowHeight headerHeight).2
        + CARD_HEIGHT ≤ windowHeight - PADDING ∧
    headerHeight + PADDING
      ≤ (computeCardPosition clickX clickY windowWidth windowHeight headerHeight).2 := by
  simp only [computeCardPosition, CARD_WIDTH, CARD_HEIGHT, PADDING] at *
  refine ⟨?_, ?_, ?_⟩ <;> split_ifs <;> linarith

/-- Witness for C7: the bottom-right-corner click of the 1000×800 scenario,
with a 64-pixel header. -/
theorem C7_clamped_position_witness :
    ((64 : ℚ) + CARD_HEIGHT + 2 * PADDING ≤ 800) ∧
    ((computeCardPosition 990 790 1000 800 64).1 + CARD_WIDTH ≤ 1000 - PADDING ∧
      (computeCardPosition 990 790 1000 800 64).2 + CARD_HEIGHT ≤ 800 - PADDING ∧
      (64 : ℚ) + PADDING ≤ (computeCardPosition 990 790 1000 800 64).2) :=
  ⟨by norm_num [CARD_HEIGHT, PADDING],
    C7_clamped_position 990 790 1000 800 64 (by norm_num [CARD_HEIGHT, PADDING])⟩

/-! ## C9: add-property workflow -/

/-- C9 (counterexample): identifiers are synthesized from the collection
length, so they are not always distinct from existing identifiers: with a
one-element collection whose property already has id `"101"`, the
synthesized id `(1 + 100).toString()` collides. -/
theorem C9_counterexample :
    ¬ ((mkNewProperty collidingState sampleFormData).id ∉
        collidingState.properties.map Property.id) := by
  decide

/-- C9 (amended): submitting the form appends exactly one property built
from the form payload (which carries the captured coordinates) plus the
synthesized id `(length + 100).toString()`, leaves all pre-existing entries
unchanged in content and order, closes the drawer and discards the captured
coordinates; the synthesized id is distinct from all existing ids provided
no existing id equals that string.  A map background click captures the
clicked coordinates and opens the drawer; dismissing the drawer discards
the captured coordinates and leaves the collection unchanged. -/
theorem C9_add_property_workflow (s : ListingsState) (d : NewPropertyData)
    (coords : Coords)
    (hid : toString (s.properties.length + 100) ∉ s.properties.map Property.id) :
    (handleAddProperty s d).properties = s.properties ++ [mkNewProperty s d] ∧
    (mkNewProperty s d).id = toString (s.properties.length + 100) ∧
    (mkNewProperty s d).coordinates = d.coordinates ∧
    (mkNewProperty s d).title = d.title ∧
    (mkNewProperty s d).id ∉ s.properties.map Property.id ∧
    (handleAddProperty s d).isAddDrawerOpen = false ∧
    (handleAddProperty s d).newPropertyCoords = none ∧
    (handleMapClick s (some coords)).newPropertyCoords = some coords ∧
    (handleMapClick s (some coords)).isAddDrawerOpen = true ∧
    (handleAddDrawerOpen s false).newPropertyCoords = none ∧
    (handleAddDrawerOpen s false).properties = s.properties ∧
    (handleAddDrawerOpen s false).isAddDrawerOpen = false :=
  ⟨rfl, rfl, rfl, rfl, hid, rfl, rfl, rfl, rfl, rfl, rfl, rfl⟩

/-- Witness for C9 at a concrete collection without id collision. -/
theorem C9_add_property_workflow_witness :
    (toString (sampleState.properties.length + 100) ∉
        sampleState.properties.map Property.id) ∧
    (handleAddProperty sampleState sampleFormData).properties
      = sampleState.properties ++ [mkNewProperty sampleState sampleFormData] :=
  ⟨by decide,
    (C9_add_property_workflow sampleState sampleFormData sampleCoords (by decide)).1⟩

/-! ## C4: price sorting -/

/-- Filtering a stable insertion sort by a predicate whose satisfying
elements are pairwise related (here: all of one price) leaves their
original relative order untouched. -/
theorem insertionSort_filter_eq {α : Type} (r : α → α → Prop) [DecidableRel r]
    [IsTotal α r] [IsTrans α r] (l : List α) (q : α → Bool)
    (hq : ∀ a b, q a = true → q b = true → r a b) :
    (l.insertionSort r).filter q = l.filter q := by
  have hpair : (l.filter q).Pairwise r :=
    List.pairwise_of_forall_mem_list fun a ha b hb =>
      hq a b (List.of_mem_filter ha) (List.of_mem_filter hb)
  have hsl : List.Sublist (l.filter q) (l.insertionSort r) :=
    List.sublist_insertionSort hpair (List.filter_sublist l)
  have hqq : (l.filter q).filter q = l.filter q :=
    List.filter_eq_self.mpr fun a ha => List.of_mem_filter ha
  have hsl2 : List.Sublist (l.filter q) ((l.insertionSort r).filter q) := by
    have h2 := hsl.filter q
    rwa [hqq] at h2
  have hperm : List.Perm ((l.insertionSort r).filter q) (l.filter q) :=
    (List.perm_insertionSort r l).filter q
  exact (hsl2.eq_of_length hperm.length_eq.symm).symm

/-- C4: with an ascending or descending price sort the visible set is
sorted by price and stable (properties of any fixed price keep the relative
order they have in the filtered-but-unsorted collection); the sorting step
is idempotent; with `'Default'` the original collection order is preserved;
and the concrete 3-property scenario with prices `[100, 50, 75]` sorts
ascending to `[50, 75, 100]`. -/
theorem C4_price_sort (properties : List Property) (filters : FilterState) (p : ℚ) :
    (filters.priceSort = "Harga Terendah" →
      (filteredProperties properties filters).Pairwise priceAsc ∧
      (filteredProperties properties filters).filter (fun x => x.price == p)
        = (properties.filter (propertyMatches filters)).filter (fun x => x.price == p)) ∧
    (filters.priceSort = "Harga Tertinggi" →
      (filteredProperties properties filters).Pairwise priceDesc ∧
      (filteredProperties properties filters).filter (fun x => x.price == p)
        = (properties.filter (propertyMatches filters)).filter (fun x => x.price == p)) ∧
    (filters.priceSort = "Default" →
      filteredProperties properties filters
        = properties.filter (propertyMatches filters)) ∧
    sortedByPrice (sortedByPrice properties filters) filters
      = sortedByPrice properties filters ∧
    (filteredProperties props3 ascFilters).map (fun x => x.price) = [50, 75, 100] := by
  refine ⟨?_, ?_, ?_, ?_, ?_⟩
  · intro h
    have hs : sortedByPrice properties filters = properties.insertionSort priceAsc := by
      unfold sortedByPrice
      rw [h]
      simp
    constructor
    · unfold filteredProperties
      rw [hs]
      exact List.Sorted.filter _ (List.sorted_insertionSort priceAsc properties)
    · unfold filteredProperties
      rw [hs, List.filter_filter, List.filter_filter]
      apply insertionSort_filter_eq
      intro a b ha hb
      simp only [Bool.and_eq_true, beq_iff_eq] at ha hb
      show a.price ≤ b.price
      rw [ha.1, hb.1]
  · intro h
    have hs : sortedByPrice properties filters = properties.insertionSort priceDesc := by
      unfold sortedByPrice
      rw [h]
      simp
    constructor
    · unfold filteredProperties
      rw [hs]
      exact List.Sorted.filter _ (List.sorted_insertionSort priceDesc properties)
    · unfold filteredProperties
      rw [hs, List.filter_filter, List.filter_filter]
      apply insertionSort_filter_eq
      intro a b ha hb
      simp only [Bool.and_eq_true, beq_iff_eq] at ha hb
      show b.price ≤ a.price
      rw [ha.1, hb.1]
  · intro h
    unfold filteredProperties sortedByPrice
    rw [h]
    simp
  · unfold sortedByPrice
    split_ifs
    · exact List.Sorted.insertionSort_eq (List.sorted_insertionSort priceAsc properties)
    · exact List.Sorted.insertionSort_eq (List.sorted_insertionSort priceDesc properties)
    · rfl
  · decide

/-- Witness for C4 at the 3-property scenario, for each of the three sort
modes. -/
theorem C4_price_sort_witness :
    ascFilters.priceSort = "Harga Terendah" ∧
    (filteredProperties props3 ascFilters).Pairwise priceAsc ∧
    descFilters.priceSort = "Harga Tertinggi" ∧
    (filteredProperties props3 descFilters).Pairwise priceDesc ∧
    filteredProperties props3 sentinelFilters
      = props3.filter (propertyMatches sentinelFilters) :=
  ⟨rfl, ((C4_price_sort props3 ascFilters 50).1 rfl).1, rfl,
    ((C4_price_sort props3 descFilters 50).2.1 rfl).1,
    (C4_price_sort props3 sentinelFilters 50).2.2.1 rfl⟩

/-! ## C2: the range-descriptor parser -/

/-- A decimal digit is not JavaScript whitespace. -/
theorem not_isJsWS_of_digit (c : Char) (h : isDigitChar c = true) : isJsWS c = false := by
  have hne : ∀ x : Char, isDigitChar x = false → decide (c = x) = false := by
    intro x hx
    apply decide_eq_false
    intro e
    rw [e] at h
    rw [h] at hx
    exact Bool.noConfusion hx
  unfold isJsWS
  rw [hne ' ' (by decide), hne '\t' (by decide), hne '\n' (by decide), hne '\r' (by decide),
    hne '\x0b' (by decide), hne '\x0c' (by decide)]
  rfl

/-- `takeWhile` keeps a list all of whose elements satisfy the predicate. -/
theorem takeWhile_all (p : Char → Bool) (l : List Char) (h : ∀ c ∈ l, p c = true) :
    l.takeWhile p = l := by
  induction l with
  | nil => rfl
  | cons c t ih =>
    rw [List.takeWhile_cons, h c (List.mem_cons_self c t)]
    simp only [ite_true]
    rw [ih fun x hx => h x (List.mem_cons_of_mem c hx)]

/-- `dropWhile` empties a list all of whose elements satisfy the predicate. -/
theorem dropWhile_all (p : Char → Bool) (l : List Char) (h : ∀ c ∈ l, p c = true) :
    l.dropWhile p = [] := by
  induction l with
  | nil => rfl
  | cons c t ih =>
    rw [List.dropWhile_cons, h c (List.mem_cons_self c t)]
    simp only [ite_true]
    exact ih fun x hx => h x (List.mem_cons_of_mem c hx)

/-- `dropWhile` is the identity when no element satisfies the predicate. -/
theorem dropWhile_none (p : Char → Bool) (l : List Char) (h : ∀ c ∈ l, p c = false) :
    l.dropWhile p = l := by
  cases l with
  | nil => rfl
  | cons c t =>
    rw [List.dropWhile_cons, h c (List.mem_cons_self c t)]
    simp

/-- `takeWhile` over a digit block followed by a non-digit keeps exactly the
block. -/
theorem takeWhile_digits_append (ds rest : List Char) (hd : ∀ c ∈ ds, isDigitChar c = true)
    (hr : rest.head? = some '+' ∨ rest = []) :
    (ds ++ rest).takeWhile isDigitChar = ds := by
  induction ds with
  | nil =>
    rcases hr with hr | hr
    · cases rest with
      | nil => simp at hr
      | cons c t =>
        simp only [List.head?_cons, Option.some.injEq] at hr
        subst hr
        simp [List.takeWhile_cons, show isDigitChar '+' = false from by decide]
    · simp [hr]
  | cons c t ih =>
    rw [List.cons_append, List.takeWhile_cons, hd c (List.mem_cons_self c t)]
    simp only [ite_true]
    rw [ih fun x hx => hd x (List.mem_cons_of_mem c hx)]

/-- The radix-mark test fails on digit strings (optionally followed by a
trailing `'+'`), for any non-digit marker letters distinct from `' '`. -/
theorem hasRadixMark_eq_false (ds rest : List Char) (lo hi : Char)
    (hd : ∀ c ∈ ds, isDigitChar c = true)
    (hrest : ∀ c ∈ rest, c = '+')
    (hlo : isDigitChar lo = false) (hhi : isDigitChar hi = false)
    (hlop : lo ≠ '+') (hhip : hi ≠ '+') (hlosp : lo ≠ ' ') (hhisp : hi ≠ ' ') :
    hasRadixMark (ds ++ rest) lo hi = false := by
  unfold hasRadixMark
  cases ds with
  | nil =>
    cases rest with
    | nil => simp
    | cons c t =>
      have hc : c = '+' := hrest c (List.mem_cons_self c t)
      subst hc
      have e1 : ¬ ('+' = '0') := by decide
      simp [decide_eq_false e1]
  | cons d t =>
    cases t with
    | nil =>
      cases rest with
      | nil =>
        have e1 : ¬ (' ' = lo) := fun e => hlosp e.symm
        have e2 : ¬ (' ' = hi) := fun e => hhisp e.symm
        simp [decide_eq_false e1, decide_eq_false e2]
      | cons c t2 =>
        have hc : c = '+' := hrest c (List.mem_cons_self c t2)
        subst hc
        have e1 : ¬ ('+' = lo) := fun e => hlop e.symm
        have e2 : ¬ ('+' = hi) := fun e => hhip e.symm
        simp [decide_eq_false e1, decide_eq_false e2]
    | cons e t2 =>
      have he : isDigitChar e = true := hd e (by simp)
      have e1 : ¬ (e = lo) := by
        intro hx
        rw [hx] at he
        rw [he] at hlo
        exact Bool.noConfusion hlo
      have e2 : ¬ (e = hi) := by
        intro hx
        rw [hx] at he
        rw [he] at hhi
        exact Bool.noConfusion hhi
      simp [decide_eq_false e1, decide_eq_false e2]

/-- `parseInt` on a digit string followed by `'+'` reads exactly the digit
block. -/
theorem parseIntJS_of_digits (ds : List Char) (hne : ds ≠ [])
    (hd : ∀ c ∈ ds, isDigitChar c = true) :
    parseIntJS (String.mk (ds ++ ['+'])) = JsNum.finite (digitsToNat ds) := by
  obtain ⟨d, t, rfl⟩ := List.exists_cons_of_ne_nil hne
  have hdd : isDigitChar d = true := hd d (List.mem_cons_self d t)
  have hdw : ((d :: t) ++ ['+']).dropWhile isJsWS = d :: (t ++ ['+']) := by
    rw [List.cons_append, List.dropWhile_cons, not_isJsWS_of_digit d hdd]
    simp
  have hd1 : ¬ ((d :: (t ++ ['+'])).head? = some '-') := by
    simp only [List.head?_cons, Option.some.injEq]
    intro e
    rw [e] at hdd
    exact absurd hdd (by decide)
  have hd2 : ¬ ((d :: (t ++ ['+'])).head? = some '+') := by
    simp only [List.head?_cons, Option.some.injEq]
    intro e
    rw [e] at hdd
    exact absurd hdd (by decide)
  have hrm : hasRadixMark (d :: (t ++ ['+'])) 'x' 'X' = false := by
    have h0 := hasRadixMark_eq_false (d :: t) ['+'] 'x' 'X' hd
      (fun c hc => by simpa using hc) (by decide) (by decide) (by decide) (by decide)
      (by decide) (by decide)
    rwa [List.cons_append] at h0
  have htw : (d :: (t ++ ['+'])).takeWhile isDigitChar = d :: t := by
    have h0 := takeWhile_digits_append (d :: t) ['+'] hd (Or.inl rfl)
    rwa [List.cons_append] at h0
  unfold parseIntJS
  simp only [show (String.mk ((d :: t) ++ ['+'])).toList = (d :: t) ++ ['+'] from rfl, hdw]
  rw [if_neg hd1, if_neg hd2]
  unfold parseIntTail
  simp only [hrm, Bool.false_eq_true, if_false, htw, List.isEmpty_cons, one_mul]

/-- Splitting a list not containing the separator yields one piece. -/
theorem splitOnChar_not_mem (l : List Char) (sep : Char) (h : sep ∉ l) :
    splitOnChar l sep = [l] := by
  induction l with
  | nil => rfl
  | cons c t ih =>
    have hc : ¬ (c = sep) := fun e => h (e ▸ List.mem_cons_self c t)
    have ht : sep ∉ t := fun m => h (List.mem_cons_of_mem c m)
    simp only [splitOnChar]
    rw [if_neg hc, ih ht]
    rfl

/-- Splitting around the first separator occurrence isolates the left
piece (when it does not contain the separator). -/
theorem splitOnChar_append (l1 l2 : List Char) (sep : Char) (h : sep ∉ l1) :
    splitOnChar (l1 ++ sep :: l2) sep = l1 :: splitOnChar l2 sep := by
  induction l1 with
  | nil => simp [splitOnChar]
  | cons c t ih =>
    have hc : ¬ (c = sep) := fun e => h (e ▸ List.mem_cons_self c t)
    have ht : sep ∉ t := fun m => h (List.mem_cons_of_mem c m)
    rw [List.cons_append]
    simp only [splitOnChar]
    rw [if_neg hc, ih ht]
    simp

/-- The full-consumption decimal parse of a pure digit string yields its
decimal value. -/
theorem parseDecimalAll_digits (ds : List Char) (hne : ds ≠ [])
    (hd : ∀ c ∈ ds, isDigitChar c = true) :
    parseDecimalAll ds = some ((digitsToNat ds : ℚ)) := by
  obtain ⟨d, t, rfl⟩ := List.exists_cons_of_ne_nil hne
  unfold parseDecimalAll
  rw [takeWhile_all isDigitChar (d :: t) hd, dropWhile_all isDigitChar (d :: t) hd]
  simp [show digitsToNat [] = 0 from rfl]

/-- The numeric-literal parse of a pure digit string yields its decimal
value. -/
theorem numericLiteral_digits (ds : List Char) (hne : ds ≠ [])
    (hd : ∀ c ∈ ds, isDigitChar c = true) :
    numericLiteral ds = some ((digitsToNat ds : ℚ)) := by
  obtain ⟨d, t, rfl⟩ := List.exists_cons_of_ne_nil hne
  have hdd : isDigitChar d = true := hd d (List.mem_cons_self d t)
  have hd1 : ¬ ((d :: t).head? = some '+') := by
    simp only [List.head?_cons, Option.some.injEq]
    intro e
    rw [e] at hdd
    exact absurd hdd (by decide)
  have hd2 : ¬ ((d :: t).head? = some '-') := by
    simp only [List.head?_cons, Option.some.injEq]
    intro e
    rw [e] at hdd
    exact absurd hdd (by decide)
  have hrm : ∀ lo hi : Char, isDigitChar lo = false → isDigitChar hi = false →
      lo ≠ '+' → hi ≠ '+' → lo ≠ ' ' → hi ≠ ' ' →
      hasRadixMark (d :: t) lo hi = false := by
    intro lo hi h1 h2 h3 h4 h5 h6
    have h0 := hasRadixMark_eq_false (d :: t) [] lo hi hd
      (fun c hc => absurd hc (List.not_mem_nil c)) h1 h2 h3 h4 h5 h6
    rwa [List.append_nil] at h0
  unfold numericLiteral
  rw [if_neg hd1, if_neg hd2]
  simp only [hrm 'x' 'X' (by decide) (by decide) (by decide) (by decide) (by decide) (by decide),
    hrm 'o' 'O' (by decide) (by decide) (by decide) (by decide) (by decide) (by decide),
    hrm 'b' 'B' (by decide) (by decide) (by decide) (by decide) (by decide) (by decide),
    Bool.false_eq_true, if_false]
  exact parseDecimalAll_digits (d :: t) (by simp) hd

/-- `Number` on a pure digit string yields its decimal value. -/
theorem numberJS_of_digits (ds : List Char) (hne : ds ≠ [])
    (hd : ∀ c ∈ ds, isDigitChar c = true) :
    numberJS (String.mk ds) = JsNum.finite (digitsToNat ds) := by
  obtain ⟨d, t, rfl⟩ := List.exists_cons_of_ne_nil hne
  have htrim : trimWS (d :: t) = d :: t := by
    unfold trimWS
    rw [dropWhile_none isJsWS (d :: t)
      (fun c hc => not_isJsWS_of_digit c (hd c hc))]
    rw [dropWhile_none isJsWS (d :: t).reverse
      (fun c hc => not_isJsWS_of_digit c (hd c (List.mem_reverse.mp hc)))]
    exact List.reverse_reverse (d :: t)
  unfold numberJS
  simp only [show (String.mk (d :: t)).toList = d :: t from rfl, htrim,
    numericLiteral_digits (d :: t) (by simp) hd, List.isEmpty_cons, Bool.false_eq_true,
    if_false]

/-- `'-'` never occurs in a digit string. -/
theorem dash_not_mem_digits (ds : List Char) (hd : ∀ c ∈ ds, isDigitChar c = true) :
    '-' ∉ ds := fun m => absurd (hd '-' m) (by decide)

/-- `parseAreaRange` on a digit descriptor ending in `'+'` gives the
inclusive-from interval `[N, Infinity]`. -/
theorem parseAreaRange_digits_plus (ds : List Char) (hne : ds ≠ [])
    (hd : ∀ c ∈ ds, isDigitChar c = true) :
    parseAreaRange (String.mk (ds ++ ['+']))
      = (JsNum.finite (digitsToNat ds), JsNum.posInf) := by
  have hm : '+' ∈ ds ++ ['+'] := List.mem_append_right ds (List.mem_singleton_self '+')
  have hsem : ¬ (String.mk (ds ++ ['+']) = "Semua" ∨ String.mk (ds ++ ['+']) = "") := by
    rintro (e | e)
    · have e2 : ds ++ ['+'] = "Semua".data := congrArg String.data e
      rw [e2] at hm
      exact absurd hm (by decide)
    · have e2 : ds ++ ['+'] = "".data := congrArg String.data e
      rw [e2] at hm
      exact absurd hm (by decide)
  have hplus : (String.mk (ds ++ ['+'])).toList.contains '+' = true := by
    show (ds ++ ['+']).contains '+' = true
    simp
  unfold parseAreaRange
  rw [if_neg hsem, if_pos hplus, parseIntJS_of_digits ds hne hd]

/-- `parseAreaRange` on a digit descriptor `A-B` gives the inclusive
interval `[A, B]`. -/
theorem parseAreaRange_digits_pair (dsa dsb : List Char)
    (hnea : dsa ≠ []) (hda : ∀ c ∈ dsa, isDigitChar c = true)
    (hneb : dsb ≠ []) (hdb : ∀ c ∈ dsb, isDigitChar c = true) :
    parseAreaRange (String.mk (dsa ++ '-' :: dsb))
      = (JsNum.finite (digitsToNat dsa), JsNum.finite (digitsToNat dsb)) := by
  have hm : '-' ∈ dsa ++ '-' :: dsb :=
    List.mem_append_right dsa (List.mem_cons_self '-' dsb)
  have hsem : ¬ (String.mk (dsa ++ '-' :: dsb) = "Semua"
      ∨ String.mk (dsa ++ '-' :: dsb) = "") := by
    rintro (e | e)
    · have e2 : dsa ++ '-' :: dsb = "Semua".data := congrArg String.data e
      rw [e2] at hm
      exact absurd hm (by decide)
    · have e2 : dsa ++ '-' :: dsb = "".data := congrArg String.data e
      rw [e2] at hm
      exact absurd hm (by decide)
  have hnoplus : (String.mk (dsa ++ '-' :: dsb)).toList.contains '+' = false := by
    show (dsa ++ '-' :: dsb).contains '+' = false
    have hnm : '+' ∉ dsa ++ '-' :: dsb := by
      intro hmm
      rcases List.mem_append.mp hmm with h1 | h1
      · exact absurd (hda '+' h1) (by decide)
      · rcases List.mem_cons.mp h1 with h2 | h2
        · exact absurd h2 (by decide)
        · exact absurd (hdb '+' h2) (by decide)
    simp [hnm]
  have hnp : ¬ ((String.mk (dsa ++ '-' :: dsb)).toList.contains '+' = true) := by
    rw [hnoplus]
    exact Bool.false_ne_true
  have hsplit : splitOnChar (String.mk (dsa ++ '-' :: dsb)).toList '-' = [dsa, dsb] := by
    show splitOnChar (dsa ++ '-' :: dsb) '-' = [dsa, dsb]
    rw [splitOnChar_append dsa dsb '-' (dash_not_mem_digits dsa hda),
      splitOnChar_not_mem dsb '-' (dash_not_mem_digits dsb hdb)]
  unfold parseAreaRange
  rw [if_neg hsem, if_neg hnp]
  simp only [hsplit, List.map_cons, List.map_nil,
    numberJS_of_digits dsa hnea hda, numberJS_of_digits dsb hneb hdb]
  rfl

/-- C2: the range parser maps the sentinel `'Semua'` and the empty string
to `[0, Infinity]`, a digit descriptor `N+` to `[N, Infinity]`, and a digit
descriptor `A-B` to `[A, B]`; consequently with building-area filter
`"100+"` a property with building area exactly 100 is in the visible set
while one with building area 99 is not (other filters at sentinels). -/
theorem C2_area_range_semantics (ds dsa dsb : List Char)
    (hne : ds ≠ []) (hd : ∀ c ∈ ds, isDigitChar c = true)
    (hnea : dsa ≠ []) (hda : ∀ c ∈ dsa, isDigitChar c = true)
    (hneb : dsb ≠ []) (hdb : ∀ c ∈ dsb, isDigitChar c = true) :
    parseAreaRange "Semua" = (JsNum.finite 0, JsNum.posInf) ∧
    parseAreaRange "" = (JsNum.finite 0, JsNum.posInf) ∧
    parseAreaRange (String.mk (ds ++ ['+']))
      = (JsNum.finite (digitsToNat ds), JsNum.posInf) ∧
    parseAreaRange (String.mk (dsa ++ '-' :: dsb))
      = (JsNum.finite (digitsToNat dsa), JsNum.finite (digitsToNat dsb)) ∧
    filteredProperties [area100Property, area99Property] area100Filters
      = [area100Property] := by
  refine ⟨by decide, by decide, parseAreaRange_digits_plus ds hne hd,
    parseAreaRange_digits_pair dsa dsb hnea hda hneb hdb, ?_⟩
  have h100 : parseAreaRange "100+" = (JsNum.finite 100, JsNum.posInf) := by
    have e : ("100+" : String) = String.mk (['1', '0', '0'] ++ ['+']) := by decide
    rw [e, parseAreaRange_digits_plus ['1', '0', '0'] (by decide) (by decide)]
    norm_num [show digitsToNat ['1', '0', '0'] = 100 from by decide]
  have harea : area100Filters.buildingArea = "100+" := rfl
  have h1 : propertyMatches area100Filters area100Property = true := by
    simp only [propertyMatches, harea, h100]
    decide
  have h2 : propertyMatches area100Filters area99Property = false := by
    simp only [propertyMatches, harea, h100]
    decide
  have hflt : filteredProperties [area100Property, area99Property] area100Filters
      = List.filter (propertyMatches area100Filters) [area100Property, area99Property] := by
    unfold filteredProperties
    rw [show sortedByPrice [area100Property, area99Property] area100Filters
        = [area100Property, area99Property] from by unfold sortedByPrice; decide]
  rw [hflt, List.filter_cons, List.filter_cons, List.filter_nil, h1, h2]
  simp

/-- Witness for C2 at the digit strings `"100"`, `"30"` and `"70"`. -/
theorem C2_area_range_semantics_witness :
    (['1', '0', '0'] : List Char) ≠ [] ∧
    parseAreaRange (String.mk (['1', '0', '0'] ++ ['+']))
      = (JsNum.finite (digitsToNat ['1', '0', '0']), JsNum.posInf) ∧
    parseAreaRange (String.mk (['3', '0'] ++ '-' :: ['7', '0']))
      = (JsNum.finite (digitsToNat ['3', '0']), JsNum.finite (digitsToNat ['7', '0'])) ∧
    filteredProperties [area100Property, area99Property] area100Filters
      = [area100Property] := by
  have h := C2_area_range_semantics ['1', '0', '0'] ['3', '0'] ['7', '0']
    (by decide) (by decide) (by decide) (by decide) (by decide) (by decide)
  exact ⟨by decide, h.2.2.1, h.2.2.2.1, h.2.2.2.2⟩

end PropertiFinder
